import Mathlib

/-!
Verification model of `src/ManagementServer.cpp` (ODR-DabMux management
server): the configuration bridge (`setptree` / `getptree` /
`update_ptree` / `retrieve_new_ptree`), the input-statistics registry
(`registerInput` / `unregisterInput` / `getStatConfigJSON` /
`getValuesJSON`) and the per-input health classifier
(`InputStat::determineState`, `InputStat::encodeStateJSON`,
`InputStat::encodeValuesJSON`).

Shallow embedding conventions:
* the opaque boost `property_tree` configuration document is modelled as
  a finite association list `Ptree` (its internal structure is never
  inspected by the code under study, only cleared, assigned, copied and
  compared);
* mutex acquisition and condition-variable waits are modelled by
  explicit state passing; each call to `notify_one` is counted in a
  `Nat` result component;
* the outcome of `boost::asio::read_until` plus
  `json_parser::read_json` on the extra `setptree` line is modelled by
  the inductive `LineRead` (no data / data that fails to parse / data
  that parses to a document).  `read_json` itself parses into a local
  tree and swaps it into the target only on success, so on a parse
  failure it leaves its target argument untouched and throws.
-/

/-- Configuration document (`boost::property_tree::ptree`): modelled as an
association list, since the management server treats it as opaque data. -/
def Ptree : Type := List (String × String)

instance : DecidableEq Ptree := by
  unfold Ptree
  infer_instance

instance : EmptyCollection Ptree := ⟨([] : List (String × String))⟩

/-- Shared state of the configuration bridge inside `ManagementServer`:
the document slot `m_pt` and the two handshake flags, all guarded by
`m_configmutex`. -/
structure Bridge where
  m_pt : Ptree
  m_pending : Bool
  m_retrieve_pending : Bool
deriving DecidableEq

/-- Outcome of reading the further line of a `setptree` request and
feeding it to `json_parser::read_json`:
`empty` = `read_until` returned length 0;
`malformed` = a non-empty line was read but parsing failed (throws);
`wellFormed d` = a non-empty line was read and parsed to document `d`. -/
inductive LineRead where
  | empty : LineRead
  | malformed : LineRead
  | wellFormed : Ptree → LineRead
deriving DecidableEq

/-- Result of servicing one `setptree` request: the bridge state
afterwards, the number of `notify_one` calls performed, the response
body written back to the client (if any), and whether an exception
escaped to `handle_accept`'s catch block (dropping the connection). -/
structure SetptreeResult where
  bridge : Bridge
  notifies : Nat
  response : Option String
  dropped : Bool
deriving DecidableEq

/-- The `setptree` branch of `ManagementServer::handle_accept`
(ManagementServer.cpp lines 293-311): if a non-empty line was read it
locks `m_configmutex`, clears `m_pt`, then runs `read_json` into `m_pt`
(which replaces `m_pt` on success and throws, leaving the cleared tree in
place, on failure).  It never touches `m_retrieve_pending`, never calls
`m_condition.notify_one()`, and writes nothing back to the client. -/
def handle_accept_setptree (b : Bridge) (l : LineRead) : SetptreeResult :=
  match l with
  | LineRead.empty => ⟨b, 0, none, false⟩
  | LineRead.malformed => ⟨{ b with m_pt := ∅ }, 0, none, true⟩
  | LineRead.wellFormed d => ⟨{ b with m_pt := d }, 0, none, false⟩

/-- The `getptree` branch of `ManagementServer::handle_accept`
(ManagementServer.cpp lines 312-325) under quiescence (no concurrent
`update_ptree` and no concurrent `retrieve_new_ptree`): it sets
`m_pending := true` and then waits while
`m_pending && !m_retrieve_pending`.  Under quiescence nothing can change
the two flags, so the wait exits immediately if the condition is already
false and never exits otherwise; `none` models the latter (the handler
blocks forever), `some` returns the serialized document together with
the bridge state. -/
def handle_accept_getptree_quiescent (b : Bridge) :
    Option (Ptree × Bridge) :=
  let b1 : Bridge := { b with m_pending := true }
  if b1.m_pending && !b1.m_retrieve_pending then
    none
  else
    some (b1.m_pt, b1)

/-- `ManagementServer::update_ptree` (ManagementServer.cpp lines
357-366), the engine-side publish: if `m_running` is set it stores the
document, clears `m_pending` and notifies one waiter; otherwise it does
nothing at all.  The second component counts `notify_one` calls. -/
def update_ptree (running : Bool) (b : Bridge) (pt : Ptree) :
    Bridge × Nat :=
  if running then
    ({ b with m_pt := pt, m_pending := false }, 1)
  else
    (b, 0)

/-- `ManagementServer::retrieve_new_ptree` (ManagementServer.cpp lines
341-355), the engine-side poll: if `m_retrieve_pending` is set it copies
the document out, clears the flag, notifies one waiter and returns the
document; otherwise it returns nothing.  The last component counts
`notify_one` calls. -/
def retrieve_new_ptree (b : Bridge) : Option Ptree × Bridge × Nat :=
  if b.m_retrieve_pending then
    (some b.m_pt, { b with m_retrieve_pending := false }, 1)
  else
    (none, b, 0)

/-- A concrete well-formed replacement document used as failing input. -/
def exampleDoc : Ptree := [("a", "1")]

/-- Bridge state before the failing `setptree` request: empty tree, no
client waiting, no unconsumed client-supplied tree (the flags start
false when the server is constructed). -/
def exampleBridge0 : Bridge := ⟨∅, false, false⟩

/-- A nonempty bridge tree used to exhibit the `setptree` clear-on-parse
failure behaviour. -/
def exampleBridgeNonempty : Bridge := ⟨[("existing", "tree")], false, false⟩

/-- C1: the claim says a successful `setptree` replaces the tree, sets
`retrieve_pending` to true and wakes one waiter, writing no response
body.  Evaluating the handler at the failing input (a well-formed
document `exampleDoc` arriving at bridge state `exampleBridge0`) shows
the code stores the document and writes no response, but leaves
`m_retrieve_pending = false` and performs zero `notify_one` calls: the
flag-set and wake-up required by the claim (and needed for
`retrieve_new_ptree` ever to succeed) are missing from the code. -/
theorem setptree_success_leaves_retrieve_pending_false :
    handle_accept_setptree exampleBridge0 (LineRead.wellFormed exampleDoc) =
      ⟨⟨exampleDoc, false, false⟩, 0, none, false⟩ :=
  rfl

/-- C2: the claim says `setptree` with document D followed by `getptree`
with no engine activity terminates and returns D.  Evaluating the code:
after the `setptree` the bridge still has `m_retrieve_pending = false`
(see C1), so the `getptree` wait condition `m_pending &&
!m_retrieve_pending` is true and, under quiescence, can never become
false — the handler blocks forever (`none`) instead of returning D. -/
theorem setptree_then_getptree_blocks :
    handle_accept_getptree_quiescent
      (handle_accept_setptree exampleBridge0
        (LineRead.wellFormed exampleDoc)).bridge = none :=
  rfl

/-- C3 counterexample: the claim says a malformed `setptree` document
leaves the bridge's tree unchanged.  At the concrete bridge state
`exampleBridgeNonempty` (tree nonempty) a malformed further line leaves
the tree empty — `m_pt.clear()` runs before `read_json`, and the parse
failure leaves the cleared tree in place — so the tree after the request
differs from the tree before it. -/
theorem setptree_malformed_clears_nonempty_tree :
    (handle_accept_setptree exampleBridgeNonempty
        LineRead.malformed).bridge.m_pt ≠ exampleBridgeNonempty.m_pt := by
  decide

/-- C3 amended: on a malformed `setptree` document the bridge's tree is
left empty (the handler clears it before parsing and the failed parse
keeps the cleared tree), the two handshake flags are unchanged, no
notification happens, no response body is written, and the exception
escapes to the connection boundary (connection dropped). -/
theorem setptree_malformed_leaves_cleared_tree (b : Bridge) :
    handle_accept_setptree b LineRead.malformed =
      ⟨⟨∅, b.m_pending, b.m_retrieve_pending⟩, 0, none, true⟩ :=
  rfl

/-- C3 amended, witness at a concrete bridge state. -/
theorem setptree_malformed_leaves_cleared_tree_witness :
    handle_accept_setptree exampleBridgeNonempty LineRead.malformed =
      ⟨⟨∅, false, false⟩, 0, none, true⟩ :=
  setptree_malformed_leaves_cleared_tree exampleBridgeNonempty

/-- C10: when the server loop is not running (`m_running = false`),
`update_ptree` is a complete no-op: the bridge (tree, `m_pending`,
`m_retrieve_pending`) is returned unchanged and no waiter is woken. -/
theorem update_ptree_not_running_noop (running : Bool) (b : Bridge)
    (pt : Ptree) (h : running = false) :
    update_ptree running b pt = (b, 0) := by
  subst h
  rfl

/-- C10 witness at a concrete bridge state and document. -/
theorem update_ptree_not_running_noop_witness :
    update_ptree false exampleBridgeNonempty exampleDoc =
      (exampleBridgeNonempty, 0) :=
  update_ptree_not_running_noop false exampleBridgeNonempty exampleDoc rfl

/-- Health states of an input (`input_state_t`, declared in
`ManagementServer.h` and used by `InputStat::determineState` and
`InputStat::encodeStateJSON`; the spec lists exactly these four). -/
inductive input_state_t where
  | NoData : input_state_t
  | Unstable : input_state_t
  | Silence : input_state_t
  | Streaming : input_state_t
deriving DecidableEq

/-- Modelled from the spec: the four classifier thresholds
`INPUT_COUNTER_RESET_TIME` (minutes), `INPUT_NODATA_TIMEOUT`,
`INPUT_UNSTABLE_THRESHOLD` and `INPUT_AUDIO_LEVEL_SILENCE_COUNT` are
compile-time constants in the missing header `ManagementServer.h`; they
are carried here as explicit parameters ("a configured glitch-decay
window", "a configured no-data timeout", "a configured unstable
threshold", "a configured silence-count threshold"). -/
structure StatConfig where
  input_counter_reset_time : Int
  input_nodata_timeout : Int
  input_unstable_threshold : Nat
  input_audio_level_silence_count : Nat
deriving DecidableEq

/-- Per-input statistics record (`InputStat`): identity, transient
reporting counters, and the classifier memory, all guarded by the
instance's own mutex `m_mutex`. -/
structure InputStat where
  m_name : String
  min_fill_buffer : Int
  max_fill_buffer : Int
  peak_left : Int
  peak_right : Int
  num_underruns : Nat
  num_overruns : Nat
  m_buffer_empty : Bool
  m_time_last_buffer_nonempty : Int
  m_time_last_event : Int
  m_glitch_counter : Nat
  m_silence_counter : Nat
deriving DecidableEq

/-- First step of `InputStat::determineState` (ManagementServer.cpp
lines 440-446): if the last event is older than
`60*INPUT_COUNTER_RESET_TIME` seconds, the glitch counter is reset
to 0 (a mutation of the member, kept in the returned record). -/
def glitchDecay (cfg : StatConfig) (now : Int) (s : InputStat) :
    InputStat :=
  if now - s.m_time_last_event > 60 * cfg.input_counter_reset_time then
    { s with m_glitch_counter := 0 }
  else
    s

/-- The "STATE CALCULATION" if-chain of `InputStat::determineState`
(ManagementServer.cpp lines 448-471), applied to the record after the
glitch-counter decay.  The local variable `state` is declared
uninitialized in the source and assigned in every branch; the `Option`
models that variable, `some` marking an assignment (every branch
produces `some`). -/
def stateCalculation (cfg : StatConfig) (now : Int) (s1 : InputStat) :
    Option input_state_t :=
  if s1.m_buffer_empty = true ∧
      now - s1.m_time_last_buffer_nonempty > cfg.input_nodata_timeout then
    some input_state_t.NoData
  else if s1.m_glitch_counter ≥ cfg.input_unstable_threshold then
    some input_state_t.Unstable
  else if s1.m_silence_counter > cfg.input_audio_level_silence_count then
    some input_state_t.Silence
  else
    some input_state_t.Streaming

/-- `InputStat::determineState` (ManagementServer.cpp lines 433-474):
first the glitch-counter decay (a member mutation), then the state
calculation on the updated record.  Returns the updated record and the
value of the local `state` variable that the function returns. -/
def determineState (cfg : StatConfig) (now : Int) (s : InputStat) :
    InputStat × Option input_state_t :=
  (glitchDecay cfg now s, stateCalculation cfg now (glitchDecay cfg now s))

/-- The switch inside `InputStat::encodeStateJSON` (ManagementServer.cpp
lines 411-426), mapping the classifier result to the label embedded in
the `state` JSON object; the defensive `default` branch, reached only
if the local `state` variable were left without one of the four
enumeration values, yields "Unknown". -/
def encodeStateLabel : Option input_state_t → String
  | some input_state_t.NoData => "NoData"
  | some input_state_t.Unstable => "Unstable"
  | some input_state_t.Silence => "Silent"
  | some input_state_t.Streaming => "Streaming"
  | none => "Unknown"

/-- A concrete classifier configuration used by witnesses. -/
def exampleCfg : StatConfig := ⟨5, 30, 100, 100⟩

/-- A concrete input-statistics record used by witnesses: empty buffer
since time 0, both health counters above their thresholds. -/
def exampleStatNoData : InputStat :=
  ⟨"in0", -1, 0, 0, 0, 0, 0, true, 0, 0, 500, 500⟩

/-- C4: classification follows the exact priority of
`InputStat::determineState` — the glitch counter is first reset to 0
when the glitch-decay window has been exceeded (and kept otherwise);
then an empty buffer past the no-data timeout yields `NoData`
unconditionally on the counters; otherwise `Unstable` as soon as the
(post-decay) glitch counter reaches the unstable threshold; otherwise
`Silence` when the silence counter strictly exceeds the silence-count
threshold; otherwise `Streaming`. -/
theorem determineState_priority (cfg : StatConfig) (now : Int)
    (s : InputStat) :
    ((now - s.m_time_last_event > 60 * cfg.input_counter_reset_time →
        (determineState cfg now s).1.m_glitch_counter = 0) ∧
      (¬ now - s.m_time_last_event > 60 * cfg.input_counter_reset_time →
        (determineState cfg now s).1.m_glitch_counter =
          s.m_glitch_counter)) ∧
    (s.m_buffer_empty = true →
      now - s.m_time_last_buffer_nonempty > cfg.input_nodata_timeout →
      (determineState cfg now s).2 = some input_state_t.NoData) ∧
    (¬ (s.m_buffer_empty = true ∧
        now - s.m_time_last_buffer_nonempty > cfg.input_nodata_timeout) →
      (determineState cfg now s).1.m_glitch_counter ≥
        cfg.input_unstable_threshold →
      (determineState cfg now s).2 = some input_state_t.Unstable) ∧
    (¬ (s.m_buffer_empty = true ∧
        now - s.m_time_last_buffer_nonempty > cfg.input_nodata_timeout) →
      (determineState cfg now s).1.m_glitch_counter <
        cfg.input_unstable_threshold →
      s.m_silence_counter > cfg.input_audio_level_silence_count →
      (determineState cfg now s).2 = some input_state_t.Silence) ∧
    (¬ (s.m_buffer_empty = true ∧
        now - s.m_time_last_buffer_nonempty > cfg.input_nodata_timeout) →
      (determineState cfg now s).1.m_glitch_counter <
        cfg.input_unstable_threshold →
      s.m_silence_counter ≤ cfg.input_audio_level_silence_count →
      (determineState cfg now s).2 = some input_state_t.Streaming) := by
  have hfields : (glitchDecay cfg now s).m_buffer_empty = s.m_buffer_empty ∧
      (glitchDecay cfg now s).m_time_last_buffer_nonempty =
        s.m_time_last_buffer_nonempty ∧
      (glitchDecay cfg now s).m_silence_counter = s.m_silence_counter := by
    unfold glitchDecay
    split <;> exact ⟨rfl, rfl, rfl⟩
  obtain ⟨hb, ht, hsil⟩ := hfields
  refine ⟨⟨?_, ?_⟩, ?_, ?_, ?_, ?_⟩
  · intro h
    simp [determineState, glitchDecay, h]
  · intro h
    simp [determineState, glitchDecay, h]
  · intro h1 h2
    simp only [determineState, stateCalculation, hb, ht]
    rw [if_pos ⟨h1, h2⟩]
  · intro h1 h2
    simp only [determineState] at h2
    simp only [determineState, stateCalculation, hb, ht]
    rw [if_neg h1, if_pos h2]
  · intro h1 h2 h3
    simp only [determineState] at h2
    simp only [determineState, stateCalculation, hb, ht, hsil]
    rw [if_neg h1, if_neg (by omega), if_pos h3]
  · intro h1 h2 h3
    simp only [determineState] at h2
    simp only [determineState, stateCalculation, hb, ht, hsil]
    rw [if_neg h1, if_neg (by omega), if_neg (by omega)]

/-- C4 witness: at the concrete configuration `exampleCfg`, time 100 and
record `exampleStatNoData` (buffer empty since time 0, both counters at
500, far above the thresholds 100), the classifier still answers
`NoData`. -/
theorem determineState_priority_witness :
    (determineState exampleCfg 100 exampleStatNoData).2 =
      some input_state_t.NoData :=
  (determineState_priority exampleCfg 100 exampleStatNoData).2.1
    (by decide) (by decide)

/-- C9: the encoded state of any record under any configuration and any
clock is one of the four labels "NoData", "Unstable", "Silent",
"Streaming" (with the `Silence` classification spelled "Silent"), and
never the defensive fallback "Unknown": the state calculation assigns
one of the four states on every path. -/
theorem encodeStateLabel_determineState (cfg : StatConfig) (now : Int)
    (s : InputStat) :
    (encodeStateLabel (determineState cfg now s).2 = "NoData" ∨
      encodeStateLabel (determineState cfg now s).2 = "Unstable" ∨
      encodeStateLabel (determineState cfg now s).2 = "Silent" ∨
      encodeStateLabel (determineState cfg now s).2 = "Streaming") ∧
    encodeStateLabel (determineState cfg now s).2 ≠ "Unknown" ∧
    encodeStateLabel (some input_state_t.Silence) = "Silent" := by
  unfold determineState stateCalculation
  split_ifs <;>
    exact ⟨by simp [encodeStateLabel], by simp [encodeStateLabel], rfl⟩

/-- C9 witness at a concrete configuration, clock and record. -/
theorem encodeStateLabel_determineState_witness :
    encodeStateLabel (determineState exampleCfg 100 exampleStatNoData).2 ≠
      "Unknown" :=
  (encodeStateLabel_determineState exampleCfg 100 exampleStatNoData).2.1

/-- The peak-to-decibel conversion inside `InputStat::encodeValuesJSON`
(ManagementServer.cpp lines 384-390): for a nonzero peak `p`,
`round(20*log10(p / int16_max))` with `int16_max = 32767`; for a zero
peak, the fixed floor `-90`.  The C `double` arithmetic is modelled over
the reals, `log10 x` as `Real.logb 10 x` and C `round` as Mathlib's
`round` (the two rounding modes differ only at exact half-integers,
which `20*log10(p/32767)` never attains for integer `0 < p < 32767`). -/
noncomputable def peak_dB (p : Int) : Int :=
  if p ≠ 0 then round (20 * Real.logb 10 ((p : ℝ) / 32767)) else -90

/-- The two channel peaks of `InputStat::encodeValuesJSON`
(ManagementServer.cpp lines 389-390), converted independently: the
`peak_left` and `peak_right` fields of the emitted JSON object. -/
noncomputable def encodeValuesPeaks (s : InputStat) : Int × Int :=
  (peak_dB s.peak_left, peak_dB s.peak_right)

/-- C7: the peak-to-decibel encoding yields `round(20*log10(p/32767))`
for positive `p` and exactly `-90` for `p = 0`; the maximum magnitude
32767 encodes to 0; the encoding is non-decreasing on positive peaks;
and it is applied independently to the left and right channels. -/
theorem peak_dB_spec :
    peak_dB 0 = -90 ∧
    peak_dB 32767 = 0 ∧
    (∀ p : Int, 0 < p →
      peak_dB p = round (20 * Real.logb 10 ((p : ℝ) / 32767))) ∧
    (∀ p1 p2 : Int, 0 < p1 → p1 < p2 → peak_dB p1 ≤ peak_dB p2) ∧
    (∀ s : InputStat,
      encodeValuesPeaks s = (peak_dB s.peak_left, peak_dB s.peak_right)) := by
  have hformula : ∀ p : Int, 0 < p →
      peak_dB p = round (20 * Real.logb 10 ((p : ℝ) / 32767)) := by
    intro p hp
    unfold peak_dB
    rw [if_pos hp.ne']
  refine ⟨rfl, ?_, hformula, ?_, fun s => rfl⟩
  · unfold peak_dB
    rw [if_pos (by norm_num)]
    norm_num [Real.logb_one]
  · intro p1 p2 h1 h2
    rw [hformula p1 h1, hformula p2 (h1.trans h2)]
    have hc1 : (0 : ℝ) < (p1 : ℝ) := by exact_mod_cast h1
    have hc2 : (p1 : ℝ) ≤ (p2 : ℝ) := by exact_mod_cast h2.le
    have hdiv : ((p1 : ℝ) / 32767) ≤ ((p2 : ℝ) / 32767) :=
      div_le_div_of_nonneg_right hc2 (by norm_num)
    have hpos : (0 : ℝ) < (p1 : ℝ) / 32767 := by positivity
    have hlog : Real.logb 10 ((p1 : ℝ) / 32767) ≤
        Real.logb 10 ((p2 : ℝ) / 32767) :=
      Real.logb_le_logb_of_le (by norm_num) hpos hdiv
    have hmul : 20 * Real.logb 10 ((p1 : ℝ) / 32767) ≤
        20 * Real.logb 10 ((p2 : ℝ) / 32767) := by
      linarith
    rw [round_eq, round_eq]
    exact Int.floor_le_floor (by linarith)

/-- C7 witness: the floor at zero, the maximum magnitude, the explicit
formula at peak 1, and monotonicity between the concrete peaks 1 and 2. -/
theorem peak_dB_spec_witness :
    peak_dB 0 = -90 ∧ peak_dB 32767 = 0 ∧ peak_dB 1 ≤ peak_dB 2 :=
  ⟨peak_dB_spec.1, peak_dB_spec.2.1,
    peak_dB_spec.2.2.2.1 1 2 (by norm_num) (by norm_num)⟩

/-- The statistics registry `m_inputStats`
(`std::map<std::string, InputStat*>`), modelled as a key-sorted
association list with unique keys; the map's iteration order is its key
order. -/
abbrev Registry := List (String × InputStat)

/-- The key sequence of the registry, in iteration (key) order. -/
def regIds (r : Registry) : List String := r.map Prod.fst

/-- Well-formedness invariant of `std::map`: keys strictly increasing
(hence unique). -/
def SortedKeys (r : Registry) : Prop :=
  List.Pairwise (fun a b => a < b) (regIds r)

/-- `std::map` lookup (`m_inputStats.count(id)` is 1 exactly when this
is `some`). -/
def mapFind (id : String) : Registry → Option InputStat
  | [] => none
  | (k, v) :: rest => if id = k then some v else mapFind id rest

/-- `std::map` insertion (`m_inputStats[id] = is`), keeping keys
sorted; on an existing key it overwrites the mapped value. -/
def mapInsert (id : String) (v : InputStat) : Registry → Registry
  | [] => [(id, v)]
  | (k, w) :: rest =>
      if id < k then (id, v) :: (k, w) :: rest
      else if id = k then (id, v) :: rest
      else (k, w) :: mapInsert id v rest

/-- `std::map` erasure (`m_inputStats.erase(id)`). -/
def mapErase (id : String) : Registry → Registry
  | [] => []
  | (k, v) :: rest => if id = k then rest else (k, v) :: mapErase id rest

/-- `ManagementServer::registerInput` (ManagementServer.cpp lines
54-68): under the registry mutex, looks the input's name up; if already
present it logs a double-registration error and returns without
touching the map (second component `true` = error reported), otherwise
it inserts the entry (second component `false`).  No exception reaches
the caller on the duplicate path. -/
def registerInput (is : InputStat) (r : Registry) : Registry × Bool :=
  if (mapFind is.m_name r).isSome then (r, true)
  else (mapInsert is.m_name is r, false)

/-- `ManagementServer::unregisterInput` (ManagementServer.cpp lines
70-77): erases the entry if present, otherwise does nothing. -/
def unregisterInput (id : String) (r : Registry) : Registry :=
  if (mapFind id r).isSome then mapErase id r else r

/-- `ManagementServer::getStatConfigJSON` (ManagementServer.cpp lines
93-117): walks the map in key order and emits each id into the
`config` array; it mutates neither the map nor any `InputStat` (the
returned registry is the input registry). -/
def getStatConfigJSON (r : Registry) : List String × Registry :=
  (regIds r, r)

/-- Modelled from the spec: `InputStat::reset`, invoked by
`getValuesJSON` after each entry is encoded, is declared in the missing
header `ManagementServer.h`.  Per spec §4.2: the extrema counters
`min_fill` / `max_fill` return to sentinel ready-for-next-accumulation
values (the sentinels live in the header too and are taken as the
parameters `sMin`, `sMax`), `num_underruns` and `num_overruns` return
to 0, peak samples return to 0, and the glitch/silence counters and the
timestamps are not touched. -/
def InputStat.reset (sMin sMax : Int) (s : InputStat) : InputStat :=
  { s with
    min_fill_buffer := sMin
    max_fill_buffer := sMax
    peak_left := 0
    peak_right := 0
    num_underruns := 0
    num_overruns := 0 }

/-- `ManagementServer::getValuesJSON` (ManagementServer.cpp lines
119-146): walks the map in key order, encodes each entry's values (a
function of the `InputStat` record as read — first component) and then
calls that entry's `reset()`; the second component is the registry
afterwards. -/
def getValuesJSON (sMin sMax : Int) (r : Registry) :
    List (String × InputStat) × Registry :=
  (r, r.map fun p => (p.1, InputStat.reset sMin sMax p.2))

/-- Classifier memory of a registry entry: glitch counter, silence
counter and the two timestamps (the fields a read must not disturb). -/
def classifierView (p : String × InputStat) :
    String × Nat × Nat × Int × Int :=
  (p.1, p.2.m_glitch_counter, p.2.m_silence_counter,
    p.2.m_time_last_event, p.2.m_time_last_buffer_nonempty)

theorem map_classifierView_reset (sMin sMax : Int) (r : Registry) :
    (r.map fun p => (p.1, InputStat.reset sMin sMax p.2)).map
        classifierView = r.map classifierView := by
  induction r with
  | nil => rfl
  | cons q t ih =>
      simp only [List.map_cons, ih]
      rfl

/-- C5: the values snapshot is destructive exactly on the transient
counters.  The first component of the second `getValuesJSON` call (the
entries as the second call reads and reports them, no producer activity
in between) shows, for every registered input, zero underruns and
overruns, both peaks at their reset value 0, and both extrema at their
reset sentinels; and neither call changes any entry's glitch counter,
silence counter or timestamps. -/
theorem getValuesJSON_destructive (sMin sMax : Int) (r : Registry) :
    (∀ p ∈ (getValuesJSON sMin sMax
        ((getValuesJSON sMin sMax r).2)).1,
      p.2.num_underruns = 0 ∧ p.2.num_overruns = 0 ∧
      p.2.peak_left = 0 ∧ p.2.peak_right = 0 ∧
      p.2.min_fill_buffer = sMin ∧ p.2.max_fill_buffer = sMax) ∧
    (getValuesJSON sMin sMax r).2.map classifierView =
      r.map classifierView ∧
    (getValuesJSON sMin sMax
        ((getValuesJSON sMin sMax r).2)).2.map classifierView =
      r.map classifierView := by
  refine ⟨?_, ?_, ?_⟩
  · intro p hp
    simp only [getValuesJSON, List.mem_map] at hp
    obtain ⟨q, _hq, rfl⟩ := hp
    exact ⟨rfl, rfl, rfl, rfl, rfl, rfl⟩
  · exact map_classifierView_reset sMin sMax r
  · show ((r.map fun p => (p.1, InputStat.reset sMin sMax p.2)).map
        fun p => (p.1, InputStat.reset sMin sMax p.2)).map classifierView =
      r.map classifierView
    rw [map_classifierView_reset, map_classifierView_reset]

/-- A concrete busy input record: nonzero transient counters and
nonzero classifier memory, used by witnesses. -/
def exampleStatBusy : InputStat :=
  ⟨"in0", 3, 7, 1000, 900, 4, 5, false, 50, 60, 2, 3⟩

/-- A concrete one-entry registry used by witnesses. -/
def exampleRegBusy : Registry := [("in0", exampleStatBusy)]

/-- C5 witness: on the concrete registry `exampleRegBusy` (4 underruns,
5 overruns before the first call), the entry reported by the second
call has zero underruns. -/
theorem getValuesJSON_destructive_witness :
    ("in0", InputStat.reset (-1) 0 exampleStatBusy) ∈
      (getValuesJSON (-1) 0 ((getValuesJSON (-1) 0 exampleRegBusy).2)).1 ∧
    (InputStat.reset (-1) 0 exampleStatBusy).num_underruns = 0 :=
  ⟨by decide,
    ((getValuesJSON_destructive (-1) 0 exampleRegBusy).1
      ("in0", InputStat.reset (-1) 0 exampleStatBusy) (by decide)).1⟩

theorem mapFind_isSome_iff (id : String) (r : Registry) :
    (mapFind id r).isSome = true ↔ id ∈ regIds r := by
  induction r with
  | nil => simp [mapFind, regIds]
  | cons q t ih =>
      obtain ⟨k, v⟩ := q
      by_cases hik : id = k
      · simp [mapFind, regIds, hik]
      · simp [mapFind, regIds, hik] at ih ⊢
        exact ih

/-- C6: registering an input whose id is already present is a no-op
that reports the duplicate (`registerInput` returns the registry
unchanged and the error flag, with no exception — it is a total
function); afterwards the id snapshot lists that id exactly once, and
the id still maps to the originally registered record. -/
theorem registerInput_duplicate (r : Registry) (s1 s2 : InputStat)
    (hs : SortedKeys r) (h : mapFind s2.m_name r = some s1) :
    registerInput s2 r = (r, true) ∧
    List.count s2.m_name (getStatConfigJSON (registerInput s2 r).1).1 = 1 ∧
    mapFind s2.m_name (registerInput s2 r).1 = some s1 := by
  have hsome : (mapFind s2.m_name r).isSome = true := by
    rw [h]; rfl
  have hreg : registerInput s2 r = (r, true) := by
    unfold registerInput
    rw [if_pos hsome]
  refine ⟨hreg, ?_, by rw [hreg]; exact h⟩
  rw [hreg]
  have hmem : s2.m_name ∈ regIds r := (mapFind_isSome_iff s2.m_name r).mp hsome
  have hnodup : (regIds r).Nodup := hs.imp fun hlt => ne_of_lt hlt
  exact List.count_eq_one_of_mem hnodup hmem

/-- A second record carrying the same id "in0" as `exampleStatBusy` but
different counters, used to attempt a duplicate registration. -/
def exampleStatDup : InputStat :=
  { exampleStatBusy with m_silence_counter := 99 }

/-- C6 witness: the duplicate registration of "in0" on `exampleRegBusy`
is rejected, the snapshot lists "in0" once, and "in0" still maps to the
first registration `exampleStatBusy`. -/
theorem registerInput_duplicate_witness :
    registerInput exampleStatDup exampleRegBusy = (exampleRegBusy, true) ∧
    List.count exampleStatDup.m_name
      (getStatConfigJSON (registerInput exampleStatDup exampleRegBusy).1).1 =
        1 ∧
    mapFind exampleStatDup.m_name
      (registerInput exampleStatDup exampleRegBusy).1 =
        some exampleStatBusy :=
  registerInput_duplicate exampleRegBusy exampleStatBusy exampleStatDup
    (by simp [SortedKeys, regIds, exampleRegBusy]) (by decide)

theorem regIds_nil : regIds [] = [] := rfl

theorem regIds_cons (k : String) (v : InputStat) (t : Registry) :
    regIds ((k, v) :: t) = k :: regIds t := rfl

theorem mapInsert_cons_lt (id k : String) (v w : InputStat)
    (t : Registry) (h : id < k) :
    mapInsert id v ((k, w) :: t) = (id, v) :: (k, w) :: t := by
  simp [mapInsert, h]

theorem mapInsert_cons_eq (id : String) (v w : InputStat)
    (t : Registry) :
    mapInsert id v ((id, w) :: t) = (id, v) :: t := by
  simp [mapInsert]

theorem mapInsert_cons_gt (id k : String) (v w : InputStat)
    (t : Registry) (h : k < id) :
    mapInsert id v ((k, w) :: t) = (k, w) :: mapInsert id v t := by
  have h1 : ¬ id < k := asymm h
  have h2 : id ≠ k := ne_of_gt h
  simp [mapInsert, h1, h2]

theorem mem_regIds_mapInsert (id a : String) (v : InputStat)
    (r : Registry) :
    a ∈ regIds (mapInsert id v r) ↔ a = id ∨ a ∈ regIds r := by
  induction r with
  | nil => simp [mapInsert, regIds]
  | cons q t ih =>
      obtain ⟨k, w⟩ := q
      rcases lt_trichotomy id k with h | h | h
      · rw [mapInsert_cons_lt id k v w t h, regIds_cons, regIds_cons]
        simp only [List.mem_cons]
      · subst h
        rw [mapInsert_cons_eq id v w t, regIds_cons, regIds_cons]
        simp only [List.mem_cons]
        tauto
      · rw [mapInsert_cons_gt id k v w t h, regIds_cons, regIds_cons]
        simp only [List.mem_cons, ih]
        tauto

theorem sortedKeys_mapInsert (id : String) (v : InputStat)
    (r : Registry) (hs : SortedKeys r) :
    SortedKeys (mapInsert id v r) := by
  induction r with
  | nil =>
      simp [mapInsert, SortedKeys, regIds]
  | cons q t ih =>
      obtain ⟨k, w⟩ := q
      rw [SortedKeys, regIds_cons, List.pairwise_cons] at hs
      obtain ⟨hk, ht⟩ := hs
      rcases lt_trichotomy id k with h1 | h1 | h1
      · rw [SortedKeys, mapInsert_cons_lt id k v w t h1, regIds_cons,
          List.pairwise_cons]
        constructor
        · intro b hb
          rw [regIds_cons, List.mem_cons] at hb
          rcases hb with rfl | hb
          · exact h1
          · exact h1.trans (hk b hb)
        · rw [regIds_cons, List.pairwise_cons]
          exact ⟨hk, ht⟩
      · subst h1
        rw [SortedKeys, mapInsert_cons_eq id v w t, regIds_cons,
          List.pairwise_cons]
        exact ⟨hk, ht⟩
      · rw [SortedKeys, mapInsert_cons_gt id k v w t h1, regIds_cons,
          List.pairwise_cons]
        constructor
        · intro b hb
          rcases (mem_regIds_mapInsert id b v t).mp hb with rfl | hb
          · exact h1
          · exact hk b hb
        · exact ih ht

theorem mapErase_sublist (id : String) (r : Registry) :
    List.Sublist (mapErase id r) r := by
  induction r with
  | nil => simp [mapErase]
  | cons q t ih =>
      obtain ⟨k, v⟩ := q
      by_cases h : id = k
      · simp only [mapErase, if_pos h]
        exact List.sublist_cons_self (k, v) t
      · simp only [mapErase, if_neg h]
        exact ih.cons₂ (k, v)

theorem sortedKeys_mapErase (id : String) (r : Registry)
    (hs : SortedKeys r) : SortedKeys (mapErase id r) :=
  List.Pairwise.sublist ((mapErase_sublist id r).map Prod.fst) hs

theorem mem_regIds_mapErase (id a : String) :
    ∀ r : Registry, SortedKeys r →
      (a ∈ regIds (mapErase id r) ↔ a ∈ regIds r ∧ a ≠ id) := by
  intro r
  induction r with
  | nil => simp [mapErase, regIds]
  | cons q t ih =>
      obtain ⟨k, v⟩ := q
      intro hs
      rw [SortedKeys, regIds_cons, List.pairwise_cons] at hs
      obtain ⟨hk, ht⟩ := hs
      by_cases h : id = k
      · subst h
        simp only [mapErase, if_pos rfl, regIds_cons, List.mem_cons]
        constructor
        · intro hmem
          refine ⟨Or.inr hmem, ?_⟩
          rintro rfl
          exact absurd (hk a hmem) (lt_irrefl a)
        · rintro ⟨rfl | h1, h2⟩
          · exact absurd rfl h2
          · exact h1
      · simp only [mapErase, if_neg h, regIds_cons, List.mem_cons]
        rw [ih ht]
        constructor
        · rintro (rfl | ⟨h1, h2⟩)
          · exact ⟨Or.inl rfl, fun heq => h heq.symm⟩
          · exact ⟨Or.inr h1, h2⟩
        · rintro ⟨rfl | h1, h2⟩
          · exact Or.inl rfl
          · exact Or.inr ⟨h1, h2⟩

theorem sortedKeys_registerInput (s : InputStat) (r : Registry)
    (hs : SortedKeys r) : SortedKeys (registerInput s r).1 := by
  unfold registerInput
  split
  · exact hs
  · exact sortedKeys_mapInsert s.m_name s r hs

theorem mem_regIds_registerInput (s : InputStat) (a : String)
    (r : Registry) :
    a ∈ regIds (registerInput s r).1 ↔ a = s.m_name ∨ a ∈ regIds r := by
  unfold registerInput
  split
  · next h =>
      have hmem : s.m_name ∈ regIds r := (mapFind_isSome_iff s.m_name r).mp h
      constructor
      · exact Or.inr
      · rintro (rfl | h1)
        · exact hmem
        · exact h1
  · exact mem_regIds_mapInsert s.m_name a s r

theorem sortedKeys_unregisterInput (id : String) (r : Registry)
    (hs : SortedKeys r) : SortedKeys (unregisterInput id r) := by
  unfold unregisterInput
  split
  · exact sortedKeys_mapErase id r hs
  · exact hs

theorem mem_regIds_unregisterInput (id a : String) (r : Registry)
    (hs : SortedKeys r) :
    a ∈ regIds (unregisterInput id r) ↔ a ∈ regIds r ∧ a ≠ id := by
  unfold unregisterInput
  split
  · next h => exact mem_regIds_mapErase id a r hs
  · next h =>
      have hid : id ∉ regIds r := by
        intro hmem
        exact h ((mapFind_isSome_iff id r).mpr hmem)
      constructor
      · intro h1
        refine ⟨h1, ?_⟩
        rintro rfl
        exact hid h1
      · exact And.left

/-- One producer-side registry operation: a registration (carrying the
`InputStat`, whose `m_name` is the id) or an unregistration of an id. -/
inductive RegOp where
  | reg : InputStat → RegOp
  | unreg : String → RegOp
deriving DecidableEq

/-- Apply one registry operation. -/
def applyOp (r : Registry) : RegOp → Registry
  | RegOp.reg s => (registerInput s r).1
  | RegOp.unreg id => unregisterInput id r

/-- Apply a sequence of register/unregister calls, in order. -/
def applyOps (ops : List RegOp) (r : Registry) : Registry :=
  ops.foldl applyOp r

/-- Reference semantics of "currently registered" starting from an
initial membership fact `P`: a registration of `s` makes `s.m_name`
registered, an unregistration of `i` makes `i` unregistered. -/
def RegisteredFrom (P : Prop) : List RegOp → String → Prop
  | [], _ => P
  | RegOp.reg s :: ops, id => RegisteredFrom (P ∨ s.m_name = id) ops id
  | RegOp.unreg i :: ops, id => RegisteredFrom (P ∧ i ≠ id) ops id

/-- An id is currently registered after `ops` (run from an empty
registry) iff it was registered at some point and not unregistered
since. -/
def RegisteredAfter (ops : List RegOp) (id : String) : Prop :=
  RegisteredFrom False ops id

theorem RegisteredFrom_congr {P Q : Prop} (ops : List RegOp)
    (id : String) (h : P ↔ Q) :
    RegisteredFrom P ops id ↔ RegisteredFrom Q ops id := by
  induction ops generalizing P Q with
  | nil => exact h
  | cons op t ih =>
      cases op with
      | reg s => exact ih (or_congr h Iff.rfl)
      | unreg i => exact ih (and_congr h Iff.rfl)

theorem applyOps_sorted_mem (ops : List RegOp) :
    ∀ r : Registry, SortedKeys r →
      SortedKeys (applyOps ops r) ∧
      ∀ a, (a ∈ regIds (applyOps ops r) ↔
        RegisteredFrom (a ∈ regIds r) ops a) := by
  induction ops with
  | nil =>
      intro r hs
      exact ⟨hs, fun a => Iff.rfl⟩
  | cons op t ih =>
      intro r hs
      cases op with
      | reg s =>
          obtain ⟨ih1, ih2⟩ :=
            ih ((registerInput s r).1) (sortedKeys_registerInput s r hs)
          refine ⟨ih1, fun a => ?_⟩
          refine (ih2 a).trans (RegisteredFrom_congr t a ?_)
          rw [mem_regIds_registerInput s a r]
          constructor
          · rintro (rfl | h1)
            · exact Or.inr rfl
            · exact Or.inl h1
          · rintro (h1 | rfl)
            · exact Or.inr h1
            · exact Or.inl rfl
      | unreg i =>
          obtain ⟨ih1, ih2⟩ :=
            ih (unregisterInput i r) (sortedKeys_unregisterInput i r hs)
          refine ⟨ih1, fun a => ?_⟩
          refine (ih2 a).trans (RegisteredFrom_congr t a ?_)
          rw [mem_regIds_unregisterInput i a r hs]
          exact and_congr Iff.rfl ne_comm

/-- C8: after any sequence of register/unregister calls run from the
empty registry, the id snapshot of `getStatConfigJSON` lists ids in
strictly increasing key order (hence each id exactly once), an id is
listed iff it is currently registered and not since unregistered
(`RegisteredAfter`), and taking the snapshot leaves the registry — and
therefore every `InputStat` record in it — unchanged. -/
theorem getStatConfigJSON_after_ops (ops : List RegOp) :
    List.Pairwise (fun a b => a < b)
      (getStatConfigJSON (applyOps ops [])).1 ∧
    (∀ a, a ∈ (getStatConfigJSON (applyOps ops [])).1 ↔
      RegisteredAfter ops a) ∧
    (getStatConfigJSON (applyOps ops [])).2 = applyOps ops [] := by
  have h := applyOps_sorted_mem ops [] (by simp [SortedKeys, regIds])
  refine ⟨h.1, fun a => ?_, rfl⟩
  refine (h.2 a).trans (RegisteredFrom_congr ops a ?_)
  simp [regIds]

/-- A second input record, registered under id "in1". -/
def exampleStatIn1 : InputStat :=
  { exampleStatBusy with m_name := "in1" }

/-- Register "in0" and "in1", then unregister "in0". -/
def exampleOps : List RegOp :=
  [RegOp.reg exampleStatBusy, RegOp.reg exampleStatIn1,
    RegOp.unreg "in0"]

/-- C8 witness: the theorem's characterization instantiated at the
concrete sequence `exampleOps` and id "in1"; since "in1" is registered
and never unregistered in `exampleOps`, the snapshot lists it. -/
theorem getStatConfigJSON_after_ops_witness :
    ("in1" ∈ (getStatConfigJSON (applyOps exampleOps [])).1 ↔
      RegisteredAfter exampleOps "in1") ∧
    "in1" ∈ (getStatConfigJSON (applyOps exampleOps [])).1 := by
  have hiff := (getStatConfigJSON_after_ops exampleOps).2.1 "in1"
  have hreg : RegisteredAfter exampleOps "in1" := by
    show ((False ∨ ("in0" : String) = "in1") ∨ ("in1" : String) = "in1") ∧
      ("in0" : String) ≠ "in1"
    decide
  exact ⟨hiff, hiff.mpr hreg⟩
